import Mathlib

/-!
Shallow embedding of the arithmetic core of `src/src/App.jsx` (the
"fotoperiodo" photoperiod scheduler).  JavaScript numbers are embedded as
exact rationals (ℚ); the JS `%` operator (truncated remainder, sign of the
dividend) is modelled by `jsMod` below.  All definitions follow the source
line by line; spec-side reference definitions, used only to compare against
the source, carry a `spec` prefix in their names.
-/

namespace Fotoperiodo

/-- Truncation toward zero of a rational, as JavaScript obtains when it
computes `a % b = a - b * trunc (a / b)`. -/
def rtrunc (q : ℚ) : ℤ := if 0 ≤ q then ⌊q⌋ else ⌈q⌉

/-- JavaScript `a % b` on finite numbers with `b ≠ 0`: the remainder of
truncated division, carrying the sign of the dividend `a`. -/
def jsMod (a b : ℚ) : ℚ := a - b * rtrunc (a / b)

/-- `cycleLength` from App.jsx lines 108–111: the sum of light and dark
hours, replaced by the small positive epsilon `0.0000001` when the sum is
not positive. -/
def cycleLength (hoursLight hoursDark : ℚ) : ℚ :=
  if 0 < hoursLight + hoursDark then hoursLight + hoursDark else 1 / 10000000

/-- `currentInCycle` from App.jsx lines 121–123 (the same expression is
inlined in `isLightAtAbsoluteHours`, lines 144–147):
`((hoursSinceStartNow % cycleLength) + cycleLength) % cycleLength`. -/
def currentInCycle (hoursSinceStartNow cycleLen : ℚ) : ℚ :=
  jsMod (jsMod hoursSinceStartNow cycleLen + cycleLen) cycleLen

/-- `isLightAtAbsoluteHours` from App.jsx lines 144–147, with the closed-over
component state (`cycleLength`, `hoursLight`) passed explicitly. -/
def isLightAtAbsoluteHours (cycleLen hoursLight hoursSinceStart : ℚ) : Bool :=
  decide (currentInCycle hoursSinceStart cycleLen < hoursLight)

/-- `isNowLight` from App.jsx line 125. -/
def isNowLight (hoursLight cycleLen hoursSinceStartNow : ℚ) : Bool :=
  decide (currentInCycle hoursSinceStartNow cycleLen < hoursLight)

/- ### Arithmetic facts about `jsMod` and `currentInCycle` -/

theorem rtrunc_neg (q : ℚ) : rtrunc (-q) = -rtrunc q := by
  unfold rtrunc
  rcases lt_trichotomy q 0 with h | h | h
  · rw [if_neg (not_le.mpr h), if_pos (by linarith), Int.floor_neg]
  · subst h; simp
  · rw [if_pos h.le, if_neg (by simpa using h), Int.ceil_neg]

theorem jsMod_neg (a b : ℚ) : jsMod (-a) b = -jsMod a b := by
  unfold jsMod
  rw [neg_div, rtrunc_neg]
  push_cast
  ring

/-- For a nonnegative dividend and positive divisor, `jsMod` is the scaled
fractional part of the quotient. -/
theorem jsMod_nonneg_eq (a b : ℚ) (ha : 0 ≤ a) (hb : 0 < b) :
    jsMod a b = b * Int.fract (a / b) := by
  unfold jsMod rtrunc
  rw [if_pos (div_nonneg ha hb.le), Int.fract]
  field_simp

/-- The double-mod expression of the source equals `cycleLen` times the
fractional part of `hoursSinceStartNow / cycleLen`, i.e. a genuine floor
modulo, whenever `cycleLen > 0`. -/
theorem currentInCycle_eq_fract (e L : ℚ) (hL : 0 < L) :
    currentInCycle e L = L * Int.fract (e / L) := by
  have hL0 : L ≠ 0 := ne_of_gt hL
  have step1 : ∀ r : ℚ, 0 ≤ r → r < L → jsMod r L = r := by
    intro r h0 h1
    have hfr : r / L < 1 := (div_lt_one hL).mpr h1
    have hfr0 : 0 ≤ r / L := div_nonneg h0 hL.le
    unfold jsMod rtrunc
    rw [if_pos hfr0, Int.floor_eq_zero_iff.mpr ⟨hfr0, hfr⟩]
    push_cast
    ring
  have step2 : ∀ r : ℚ, 0 ≤ r → r < L → jsMod (r + L) L = r := by
    intro r h0 h1
    have hq : (r + L) / L = r / L + 1 := by field_simp
    unfold jsMod rtrunc
    rw [hq, if_pos (by positivity)]
    have hfr : r / L < 1 := (div_lt_one hL).mpr h1
    have hfr0 : 0 ≤ r / L := div_nonneg h0 hL.le
    have hfl : ⌊r / L + 1⌋ = 1 := by
      rw [Int.floor_add_one, Int.floor_eq_zero_iff.mpr ⟨hfr0, hfr⟩]
      norm_num
    rw [hfl]
    push_cast
    ring
  rcases le_or_lt 0 e with he | he
  · have h1 : jsMod e L = L * Int.fract (e / L) := jsMod_nonneg_eq e L he hL
    unfold currentInCycle
    rw [h1]
    exact step2 _ (mul_nonneg hL.le (Int.fract_nonneg _))
      ((mul_lt_iff_lt_one_right hL).mpr (Int.fract_lt_one _))
  · have hme : 0 ≤ -e := by linarith
    have h1 : jsMod e L = -(L * Int.fract (-e / L)) := by
      rw [← neg_neg e, jsMod_neg, jsMod_nonneg_eq (-e) L hme hL, neg_neg]
    by_cases hz : Int.fract (-e / L) = 0
    · have hz2 : Int.fract (e / L) = 0 := by
        have := Int.fract_neg_eq_zero.mpr hz
        rwa [neg_div, neg_neg] at this
      unfold currentInCycle
      rw [h1, hz, hz2, mul_zero, neg_zero, zero_add]
      unfold jsMod rtrunc
      rw [div_self hL0, if_pos (by norm_num)]
      norm_num
    · have hfe : Int.fract (e / L) = 1 - Int.fract (-e / L) := by
        have hh := Int.fract_neg (x := -e / L) hz
        have harg2 : -(-e / L) = e / L := by ring
        rwa [harg2] at hh
      unfold currentInCycle
      rw [h1, hfe]
      have hb0 : 0 < Int.fract (-e / L) := lt_of_le_of_ne (Int.fract_nonneg _) (Ne.symm hz)
      have hb1 : Int.fract (-e / L) < 1 := Int.fract_lt_one _
      have harg : -(L * Int.fract (-e / L)) + L = L * (1 - Int.fract (-e / L)) := by ring
      rw [harg]
      have h0 : 0 ≤ L * (1 - Int.fract (-e / L)) := by nlinarith
      have h1' : L * (1 - Int.fract (-e / L)) < L := by nlinarith
      exact step1 _ h0 h1'

/- ### Remaining derived values of App.jsx -/

/-- `energyBalance` from App.jsx lines 151–159: zero before the start,
otherwise standard (12/12) light consumption minus the configured
schedule's light consumption over the elapsed time. -/
def energyBalance (hoursLight hoursDark hoursSinceStartNow : ℚ) : ℚ :=
  if hoursSinceStartNow < 0 then 0
  else 1 / 2 * hoursSinceStartNow
    - hoursLight / cycleLength hoursLight hoursDark * hoursSinceStartNow

/-- Result record of `formattedTimeElapsed` (App.jsx lines 162–174). -/
structure TimeBreakdown where
  days : ℤ
  hours : ℤ
  minutes : ℤ
  display : String
deriving DecidableEq, Repr

/-- `formattedTimeElapsed` from App.jsx lines 162–174.  `Math.floor` of a
nonnegative quotient is integer division, so `%` and `/` on ℤ (Euclidean
on nonnegative operands) model the JS arithmetic exactly. -/
def formattedTimeElapsed (hoursSinceStartNow : ℚ) : TimeBreakdown :=
  if hoursSinceStartNow < 0 then ⟨0, 0, 0, "0 d"⟩
  else
    let totalMinutes : ℤ := ⌊hoursSinceStartNow * 60⌋
    let days := totalMinutes / (24 * 60)
    let rem := totalMinutes % (24 * 60)
    let hours := rem / 60
    let minutes := rem % 60
    let parts : List String :=
      (if 0 < days then [toString days ++ " d"] else [])
      ++ (if 0 < hours ∨ (days = 0 ∧ 0 < minutes) then [toString hours ++ " h"] else [])
      ++ (if 0 < minutes ∧ days = 0 ∧ hours = 0 then [toString minutes ++ " m"] else [])
    ⟨days, hours, minutes,
      if 0 < parts.length then String.intercalate " y " parts else "0 d"⟩

/-- Reference formatter transcribed from the words of the specification
(§4.6): `days = totalMinutes div 1440`, `hours = (totalMinutes mod 1440)
div 60`, `minutes = totalMinutes mod 60`, segments gated exactly as the
spec states, display `"0 d"` when no segment qualifies. -/
def specFormattedTimeElapsed (elapsedHours : ℚ) : TimeBreakdown :=
  if elapsedHours < 0 then ⟨0, 0, 0, "0 d"⟩
  else
    let totalMinutes : ℤ := ⌊elapsedHours * 60⌋
    let days := totalMinutes / 1440
    let hours := totalMinutes % 1440 / 60
    let minutes := totalMinutes % 60
    let segments : List String :=
      (if 0 < days then [toString days ++ " d"] else [])
      ++ (if 0 < hours ∨ (days = 0 ∧ 0 < minutes) then [toString hours ++ " h"] else [])
      ++ (if 0 < minutes ∧ days = 0 ∧ hours = 0 then [toString minutes ++ " m"] else [])
    ⟨days, hours, minutes,
      if segments = [] then "0 d" else String.intercalate " y " segments⟩

/-- `fractionalStartOffset` from App.jsx lines 113–115: the fractional
hour-of-day of the start instant. -/
def fractionalStartOffset (hours minutes seconds : ℕ) : ℚ :=
  (hours : ℚ) + (minutes : ℚ) / 60 + (seconds : ℚ) / 3600

/-- `calendar` from App.jsx lines 177–198, keeping only the `isLight` value
of each cell (the date label is presentation).  `durationDays` is an
integer (spec §3), so the source's `clamp(Number(durationDays) || 0, 1,
9999)` becomes an integer clamp; the day loop runs once per clamped day,
and each cell evaluates the §4.2 light test at `d*24 + h +
fractionalStartOffset`. -/
def calendar (hoursLight hoursDark fso : ℚ) (durationDays : ℤ) : List (List Bool) :=
  let cycleLen := cycleLength hoursLight hoursDark
  let days := (max 1 (min 9999 durationDays)).toNat
  (List.range days).map fun (d : ℕ) =>
    (List.range 24).map fun (h : ℕ) =>
      isLightAtAbsoluteHours cycleLen hoursLight ((d : ℚ) * 24 + (h : ℚ) + fso)

/-- Result record of `nextChangeEvent` (App.jsx lines 201–220), keeping the
two computed fields (`date`/`time`/`action` are presentation). -/
structure NextChangeEvent where
  hoursToNext : ℚ
  nextState : String
deriving DecidableEq, Repr

/-- `nextChangeEvent` from App.jsx lines 201–220.  In ℚ every value is
finite, so the source's `!Number.isFinite(hoursToNext)` clamp guard reduces
to the negativity check. -/
def nextChangeEvent (hoursLight hoursDark hoursSinceStartNow : ℚ) : NextChangeEvent :=
  let cycleLen := cycleLength hoursLight hoursDark
  let cic := currentInCycle hoursSinceStartNow cycleLen
  if cic < hoursLight then
    { hoursToNext := if hoursLight - cic < 0 then 0 else hoursLight - cic
      nextState := "OFF" }
  else
    { hoursToNext := if cycleLen - cic < 0 then 0 else cycleLen - cic
      nextState := "ON" }

/- ### Import / export (App.jsx lines 223–247) -/

/-- A JSON value as it can appear in an imported payload field. -/
inductive JsVal where
  | jstr (s : String)
  | jnum (q : ℚ)
  | jnan
  | jbool (b : Bool)
  | jnull
deriving DecidableEq, Repr

/-- JavaScript truthiness, used by `if (obj.startDate)`. -/
def truthy : JsVal → Bool
  | .jstr s => s ≠ ""
  | .jnum q => q ≠ 0
  | .jnan => false
  | .jbool b => b
  | .jnull => false

/-- Model of the host `String(v)` coercion used by `setStartDate(String(obj.startDate))`. -/
def jsToString : JsVal → String
  | .jstr s => s
  | .jnum q => toString q
  | .jnan => "NaN"
  | .jbool b => if b then "true" else "false"
  | .jnull => "null"

/-- Value of a digit string read in base ten. -/
def digitsVal (l : List Char) : ℕ :=
  l.foldl (fun a c => a * 10 + (c.toNat - 48)) 0

/-- Model of the host `Number(s)` coercion on strings, for the plain decimal
literals relevant here: blank strings coerce to `0`, optionally signed
decimal digit strings (with an optional fractional part) to their value,
and anything else to NaN (`none`). -/
def jsStringToNumber (s : String) : Option ℚ :=
  let t := s.trim
  if t = "" then some 0
  else
    let (sgn, body) :=
      match t.toList with
      | '-' :: rest => ((-1 : ℚ), rest)
      | '+' :: rest => ((1 : ℚ), rest)
      | l => ((1 : ℚ), l)
    let intPart := body.takeWhile (fun c => c ≠ '.')
    match body.dropWhile (fun c => c ≠ '.') with
    | [] =>
      if intPart ≠ [] ∧ intPart.all Char.isDigit
      then some (sgn * digitsVal intPart) else none
    | '.' :: fracPart =>
      if (intPart ≠ [] ∨ fracPart ≠ []) ∧ intPart.all Char.isDigit
          ∧ fracPart.all Char.isDigit
      then some (sgn * ((digitsVal intPart : ℚ)
        + (digitsVal fracPart : ℚ) / 10 ^ fracPart.length))
      else none
    | _ => none

/-- Finite result of the host `Number(v)` coercion: `some q` exactly when
`Number.isFinite(Number(v))` holds, in which case the number is `q`. -/
def toNumber : JsVal → Option ℚ
  | .jstr s => jsStringToNumber s
  | .jnum q => some q
  | .jnan => none
  | .jbool b => some (if b then 1 else 0)
  | .jnull => some 0

/-- The four persisted configuration fields of the component state
(`startDate`, `hoursLight`, `hoursDark`, `durationDays`). -/
structure Config where
  startDate : String
  hoursLight : ℚ
  hoursDark : ℚ
  durationDays : ℚ
deriving DecidableEq, Repr

/-- A successfully parsed import payload: the value found at each of the
four known keys, `none` when the key is absent (reading an absent property
yields `undefined`, whose `Number` coercion is NaN and which is falsy). -/
structure ImportPayload where
  startDate : Option JsVal := none
  hoursLight : Option JsVal := none
  hoursDark : Option JsVal := none
  durationDays : Option JsVal := none
deriving DecidableEq, Repr

/-- Field update gated by `Number.isFinite(Number(v))`, as in
`if (Number.isFinite(Number(obj.hoursLight))) setHoursLight(Number(obj.hoursLight))`. -/
def importNumField (old : ℚ) (v : Option JsVal) : ℚ :=
  match v.bind toNumber with
  | some q => q
  | none => old

/-- `handleImport` from App.jsx lines 232–247.  The argument is the parse
outcome of the file text: `JSON.parse` either throws (`.error`, the catch
branch alerts and touches nothing) or yields a payload whose four known
fields are applied with their individual guards. -/
def handleImport (cfg : Config) (source : Except Unit ImportPayload) : Config :=
  match source with
  | .error _ => cfg
  | .ok obj =>
    { startDate :=
        match obj.startDate with
        | some v => if truthy v then jsToString v else cfg.startDate
        | none => cfg.startDate
      hoursLight := importNumField cfg.hoursLight obj.hoursLight
      hoursDark := importNumField cfg.hoursDark obj.hoursDark
      durationDays := importNumField cfg.durationDays obj.durationDays }

/-- `handleExport` from App.jsx lines 223–230: the emitted JSON object
holds exactly the four current state fields (the string as a JSON string,
the finite numbers as JSON numbers), so re-parsing the exported text yields
this payload. -/
def handleExport (cfg : Config) : ImportPayload :=
  { startDate := some (.jstr cfg.startDate)
    hoursLight := some (.jnum cfg.hoursLight)
    hoursDark := some (.jnum cfg.hoursDark)
    durationDays := some (.jnum cfg.durationDays) }

/- ### Shared lemmas -/

theorem cycleLength_pos (hoursLight hoursDark : ℚ) : 0 < cycleLength hoursLight hoursDark := by
  unfold cycleLength
  split
  · assumption
  · norm_num

theorem currentInCycle_mem (e L : ℚ) (hL : 0 < L) :
    0 ≤ currentInCycle e L ∧ currentInCycle e L < L := by
  rw [currentInCycle_eq_fract e L hL]
  exact ⟨mul_nonneg hL.le (Int.fract_nonneg _),
    (mul_lt_iff_lt_one_right hL).mpr (Int.fract_lt_one _)⟩

/-- For a within-cycle offset the double mod is the identity. -/
theorem currentInCycle_of_lt (e L : ℚ) (h0 : 0 ≤ e) (h1 : e < L) :
    currentInCycle e L = e := by
  have hL : 0 < L := lt_of_le_of_lt h0 h1
  rw [currentInCycle_eq_fract e L hL,
    Int.fract_eq_self.mpr ⟨div_nonneg h0 hL.le, (div_lt_one hL).mpr h1⟩]
  field_simp

/- ### Claims -/

/-- C1: for every elapsed-hours value and every positive cycle length, the
double-mod phase position `((e % L) + L) % L` computed by the source lies
in `[0, L)`; in particular it is never negative, also for negative elapsed
hours (instants before the start). -/
theorem claim1_positionInCycle_bounds (e L : ℚ) (hL : 0 < L) :
    0 ≤ currentInCycle e L ∧ currentInCycle e L < L :=
  currentInCycle_mem e L hL

theorem claim1_witness :
    0 ≤ currentInCycle (-5) 27 ∧ currentInCycle (-5) 27 < 27 :=
  claim1_positionInCycle_bounds (-5) 27 (by decide)

/-- C10: in exact arithmetic the per-hour light test is periodic with
period equal to the (positive) cycle length. -/
theorem claim10_isLight_periodic (L hl h : ℚ) (hL : 0 < L) :
    isLightAtAbsoluteHours L hl (h + L) = isLightAtAbsoluteHours L hl h := by
  unfold isLightAtAbsoluteHours
  have harg : (h + L) / L = h / L + (1 : ℤ) := by
    push_cast
    field_simp
  rw [currentInCycle_eq_fract _ _ hL, currentInCycle_eq_fract _ _ hL, harg,
    Int.fract_add_int]

theorem claim10_witness :
    isLightAtAbsoluteHours 27 13 (5 + 27) = isLightAtAbsoluteHours 27 13 5 :=
  claim10_isLight_periodic 27 13 5 (by decide)

/-- C5: the light test is the strict comparison `position < lightHours`, so
the boundary instant with position exactly `lightHours` is dark; with
lightHours = 13 and darkHours = 14, at 13 elapsed hours the position is 13
and the state is dark. -/
theorem claim5_isLight_strict_boundary :
    (∀ cl hl t : ℚ, isLightAtAbsoluteHours cl hl t = true ↔ currentInCycle t cl < hl)
    ∧ currentInCycle 13 (cycleLength 13 14) = 13
    ∧ isLightAtAbsoluteHours (cycleLength 13 14) 13 13 = false := by
  have hcl : cycleLength 13 14 = 27 := by norm_num [cycleLength]
  have hpos : currentInCycle 13 (cycleLength 13 14) = 13 := by
    rw [hcl]
    exact currentInCycle_of_lt 13 27 (by norm_num) (by norm_num)
  refine ⟨fun cl hl t => by simp [isLightAtAbsoluteHours], hpos, ?_⟩
  simp [isLightAtAbsoluteHours, hpos]

/-- C3 counterexample: with lightHours = 24, darkHours = 0 and an as-of
instant equal to the start, the predicted wait is exactly one full cycle
length, so `hoursToNext ∈ [0, cycleLength)` fails as stated. -/
theorem claim3_counterexample :
    (nextChangeEvent 24 0 0).hoursToNext = cycleLength 24 0
    ∧ ¬((nextChangeEvent 24 0 0).hoursToNext < cycleLength 24 0) := by
  have hcl : cycleLength 24 0 = 24 := by norm_num [cycleLength]
  have hcic : currentInCycle 0 (cycleLength 24 0) = 0 := by
    rw [hcl]
    exact currentInCycle_of_lt 0 24 le_rfl (by norm_num)
  have hval : (nextChangeEvent 24 0 0).hoursToNext = 24 := by
    simp only [nextChangeEvent, hcic]
    norm_num
  rw [hval, hcl]
  norm_num

/-- C3 amended: for a configuration with nonnegative light and dark hours
the predicted wait lies in `[0, cycleLength]`, and the upper bound is
strict as soon as both phase durations are positive (the stated half-open
interval fails only in the degenerate single-phase configurations). -/
theorem claim3_amended (hl hd e : ℚ) (hhl : 0 ≤ hl) (hhd : 0 ≤ hd) :
    (0 ≤ (nextChangeEvent hl hd e).hoursToNext
      ∧ (nextChangeEvent hl hd e).hoursToNext ≤ cycleLength hl hd)
    ∧ (0 < hl → 0 < hd → (nextChangeEvent hl hd e).hoursToNext < cycleLength hl hd)
    ∧ (nextChangeEvent hl hd e).nextState
        = (if currentInCycle e (cycleLength hl hd) < hl then "OFF" else "ON") := by
  have hclpos : 0 < cycleLength hl hd := cycleLength_pos hl hd
  obtain ⟨hc0, hc1⟩ := currentInCycle_mem e (cycleLength hl hd) hclpos
  by_cases hlt : currentInCycle e (cycleLength hl hd) < hl
  · have hraw : ¬(hl - currentInCycle e (cycleLength hl hd) < 0) := by linarith
    have hval : (nextChangeEvent hl hd e).hoursToNext
        = hl - currentInCycle e (cycleLength hl hd) := by
      simp only [nextChangeEvent, if_pos hlt, if_neg hraw]
    have hst : (nextChangeEvent hl hd e).nextState = "OFF" := by
      simp only [nextChangeEvent, if_pos hlt]
    have hhlcl : hl ≤ cycleLength hl hd := by
      by_cases hsum : 0 < hl + hd
      · rw [cycleLength, if_pos hsum]
        linarith
      · exfalso
        have : hl = 0 := by linarith
        linarith
    refine ⟨⟨?_, ?_⟩, ?_, ?_⟩
    · rw [hval]; linarith
    · rw [hval]; linarith
    · intro hpl hpd
      have hsum : 0 < hl + hd := by linarith
      have hclv : cycleLength hl hd = hl + hd := by rw [cycleLength, if_pos hsum]
      rw [hval]
      linarith [hclv]
    · rw [hst, if_pos hlt]
  · have hge : hl ≤ currentInCycle e (cycleLength hl hd) := le_of_not_lt hlt
    have hraw : ¬(cycleLength hl hd - currentInCycle e (cycleLength hl hd) < 0) := by
      linarith
    have hval : (nextChangeEvent hl hd e).hoursToNext
        = cycleLength hl hd - currentInCycle e (cycleLength hl hd) := by
      simp only [nextChangeEvent, if_neg hlt, if_neg hraw]
    have hst : (nextChangeEvent hl hd e).nextState = "ON" := by
      simp only [nextChangeEvent, if_neg hlt]
    refine ⟨⟨?_, ?_⟩, ?_, ?_⟩
    · rw [hval]; linarith
    · rw [hval]; linarith
    · intro hpl hpd
      rw [hval]
      linarith
    · rw [hst, if_neg hlt]

theorem claim3_witness :
    (nextChangeEvent 13 14 5).hoursToNext < cycleLength 13 14 :=
  (claim3_amended 13 14 5 (by decide) (by decide)).2.1 (by decide) (by decide)

/-- C4 counterexample: with lightHours = darkHours = 0 the cycle length is
the epsilon substitute, the light ratio is 0 rather than 0.5, and the
balance after two elapsed hours is 1, not 0. -/
theorem claim4_counterexample :
    energyBalance 0 0 2 = 1 ∧ energyBalance 0 0 2 ≠ 0 := by
  have h : energyBalance 0 0 2 = 1 := by norm_num [energyBalance, cycleLength]
  exact ⟨h, by rw [h]; norm_num⟩

/-- C4 amended: the balance vanishes for all nonnegative elapsed times
whenever lightHours = darkHours > 0; in general it vanishes for all
nonnegative elapsed times exactly when `lightHours / cycleLength = 1/2`
(the all-zero configuration falls to the epsilon cycle, ratio 0, and is
the one lightHours = darkHours case excluded). -/
theorem claim4_amended :
    (∀ hl t : ℚ, 0 < hl → 0 ≤ t → energyBalance hl hl t = 0)
    ∧ (∀ hl hd : ℚ,
        (∀ t : ℚ, 0 ≤ t → energyBalance hl hd t = 0)
          ↔ hl / cycleLength hl hd = 1 / 2) := by
  constructor
  · intro hl t hpl ht
    have hsum : 0 < hl + hl := by linarith
    rw [energyBalance, if_neg (not_lt.mpr ht), cycleLength, if_pos hsum]
    have hne : hl + hl ≠ 0 := ne_of_gt hsum
    field_simp
    ring
  · intro hl hd
    constructor
    · intro hall
      have h1 := hall 1 (by norm_num)
      rw [energyBalance, if_neg (by norm_num)] at h1
      linarith
    · intro hr t ht
      rw [energyBalance, if_neg (not_lt.mpr ht), hr]
      ring

theorem claim4_witness : energyBalance 12 12 5 = 0 :=
  claim4_amended.1 12 5 (by decide) (by decide)

/-- C9: the source formatter agrees with the specification's description in
all four fields for every elapsed-hours value: negative inputs give the
all-zero `"0 d"` record, and otherwise the day/hour/minute decomposition
and the segment gating are exactly as specified. -/
theorem claim9_formatter_matches_spec (h : ℚ) :
    formattedTimeElapsed h = specFormattedTimeElapsed h := by
  by_cases hneg : h < 0
  · rw [formattedTimeElapsed, specFormattedTimeElapsed, if_pos hneg, if_pos hneg]
  · have hmod : ∀ t : ℤ, t % 1440 % 60 = t % 60 := fun t =>
      Int.emod_emod_of_dvd t (by norm_num)
    rw [formattedTimeElapsed, specFormattedTimeElapsed, if_neg hneg, if_neg hneg]
    simp only [show ((24 : ℤ) * 60) = 1440 from by norm_num, hmod]
    rcases hp : (if 0 < ⌊h * 60⌋ / 1440 then [toString (⌊h * 60⌋ / 1440) ++ " d"] else [])
        ++ (if 0 < ⌊h * 60⌋ % 1440 / 60 ∨ (⌊h * 60⌋ / 1440 = 0 ∧ 0 < ⌊h * 60⌋ % 60)
            then [toString (⌊h * 60⌋ % 1440 / 60) ++ " h"] else [])
        ++ (if 0 < ⌊h * 60⌋ % 60 ∧ ⌊h * 60⌋ / 1440 = 0 ∧ ⌊h * 60⌋ % 1440 / 60 = 0
            then [toString (⌊h * 60⌋ % 60) ++ " m"] else []) with hl' | ⟨a, l⟩
    · simp [hp]
    · simp [hp]

/-- Cell lookup in the calendar grid evaluates the §4.2 light test at the
cell's absolute hour offset. -/
theorem calendar_getElem (hl hd fso : ℚ) (dd : ℤ) (d h : ℕ)
    (hdlt : d < (max 1 (min 9999 dd)).toNat) (hh : h < 24) :
    ((calendar hl hd fso dd)[d]?.bind fun row => row[h]?)
      = some (isLightAtAbsoluteHours (cycleLength hl hd) hl ((d : ℚ) * 24 + (h : ℚ) + fso)) := by
  unfold calendar
  simp only [List.getElem?_map, List.getElem?_range hdlt, Option.map_some',
    Option.some_bind, List.getElem?_range hh]

/-- On a 24-hour cycle anchored at midnight, the phase position of grid
offset `e*24 + k` is just the hour `k`. -/
theorem currentInCycle_grid (e k : ℕ) (hk : k < 24) :
    currentInCycle ((e : ℚ) * 24 + (k : ℚ) + 0) 24 = k := by
  rw [currentInCycle_eq_fract _ _ (by norm_num)]
  have harg : ((e : ℚ) * 24 + (k : ℚ) + 0) / 24 = (k : ℚ) / 24 + ((e : ℤ) : ℚ) := by
    push_cast
    field_simp
    ring
  have hklt : (k : ℚ) / 24 < 1 := by
    rw [div_lt_one (by norm_num)]
    exact_mod_cast hk
  rw [harg, Int.fract_add_int, Int.fract_eq_self.mpr ⟨by positivity, hklt⟩]
  field_simp

/-- C2: every calendar cell `(d, h)` within the configured horizon holds
the §4.2 cycle test evaluated at `d*24 + h + fractionalStartOffset`; in the
midnight-start 12/12 scenario over 2 days, every cell of every row is light
exactly for hours 0–11, identically on both days. -/
theorem claim2_calendar_cells (hl hd fso : ℚ) (dd : ℤ) (d h : ℕ)
    (hdd1 : 1 ≤ dd) (hdd2 : dd ≤ 9999) (hdlt : (d : ℤ) < dd) (hh : h < 24) :
    ((calendar hl hd fso dd)[d]?.bind fun row => row[h]?)
      = some (isLightAtAbsoluteHours (cycleLength hl hd) hl ((d : ℚ) * 24 + (h : ℚ) + fso))
    ∧ (∀ e k : ℕ, e < 2 → k < 24 →
        ((calendar 12 12 (fractionalStartOffset 0 0 0) 2)[e]?.bind fun row => row[k]?)
          = some (decide ((k : ℚ) < 12))) := by
  constructor
  · exact calendar_getElem hl hd fso dd d h (by omega) hh
  · intro e k he hk
    have hfso : fractionalStartOffset 0 0 0 = 0 := by norm_num [fractionalStartOffset]
    have hcl : cycleLength 12 12 = 24 := by norm_num [cycleLength]
    rw [hfso, calendar_getElem 12 12 0 2 e k (by omega) hk]
    unfold isLightAtAbsoluteHours
    rw [hcl, currentInCycle_grid e k hk]

theorem claim2_witness :
    ((calendar 13 14 0 60)[3]?.bind fun row => row[7]?)
      = some (isLightAtAbsoluteHours (cycleLength 13 14) 13 ((3 : ℚ) * 24 + (7 : ℚ) + 0)) :=
  (claim2_calendar_cells 13 14 0 60 3 7 (by decide) (by decide) (by decide) (by decide)).1

/-- C7: a fatally malformed import source (the parse throws) changes
nothing: the resulting configuration is the old one, in all four fields. -/
theorem claim7_malformed_import_untouched (cfg : Config) :
    handleImport cfg (.error ()) = cfg := rfl

/-- C8: exporting the current configuration and importing the exported
payload yields a configuration equal to the original in all four fields. -/
theorem claim8_export_import_roundtrip (cfg : Config) :
    handleImport cfg (.ok (handleExport cfg)) = cfg := by
  rcases cfg with ⟨s, l, k, dd⟩
  by_cases hs : s = ""
  · subst hs
    simp [handleImport, handleExport, truthy, toNumber, jsToString, importNumField]
  · simp [handleImport, handleExport, truthy, toNumber, jsToString, importNumField, hs]

/-- C6 counterexample: a payload whose `startDate` is the boolean `true` —
not a date string of any kind — still overwrites the live `startDate`
(with its string coercion "true"), because the source gates that field on
truthiness alone, never on date validity. -/
theorem claim6_counterexample :
    handleImport ⟨"2024-01-01T00:00", 13, 14, 60⟩
        (.ok { startDate := some (.jbool true) })
      = ⟨"true", 13, 14, 60⟩
    ∧ ("true" : String) ≠ "2024-01-01T00:00" := by
  constructor
  · rfl
  · decide

/-- C6 amended: per-field import behaviour.  `startDate` is overwritten
exactly when the payload value is present and truthy (stored via the
`String(...)` coercion, with no date-validity check); each numeric field is
overwritten exactly when the payload value is present and its `Number(...)`
coercion is finite; every other case leaves the field unchanged, and a
parsed payload is never rejected as a whole. -/
theorem claim6_amended (cfg : Config) (obj : ImportPayload) :
    (handleImport cfg (.ok obj)).startDate
        = ((obj.startDate.filter truthy).map jsToString).getD cfg.startDate
    ∧ (handleImport cfg (.ok obj)).hoursLight
        = (obj.hoursLight.bind toNumber).getD cfg.hoursLight
    ∧ (handleImport cfg (.ok obj)).hoursDark
        = (obj.hoursDark.bind toNumber).getD cfg.hoursDark
    ∧ (handleImport cfg (.ok obj)).durationDays
        = (obj.durationDays.bind toNumber).getD cfg.durationDays := by
  refine ⟨?_, ?_, ?_, ?_⟩
  · rcases hsd : obj.startDate with _ | v
    · simp [handleImport, hsd]
    · by_cases ht : truthy v <;> simp [handleImport, hsd, Option.filter, ht]
  · rcases hn : obj.hoursLight.bind toNumber with _ | q <;>
      simp [handleImport, importNumField, hn]
  · rcases hn : obj.hoursDark.bind toNumber with _ | q <;>
      simp [handleImport, importNumField, hn]
  · rcases hn : obj.durationDays.bind toNumber with _ | q <;>
      simp [handleImport, importNumField, hn]

end Fotoperiodo
